import Mathlib

/-!
Shallow embedding of the publication core of the `content-engine` repository:
the content processor (`src/processors/content_processor.py`), the publication
manager (`src/managers/publication_manager.py`) and the retry wrapper
(`src/utils/error_handler.py`), together with proofs settling the frozen
claims about them.

Python strings are modelled as Lean `String`/`List Char`; the regular
expressions used by the source are compiled by hand into executable scanning
functions whose semantics match `re.sub`/`re.findall` on the patterns the
source uses.  Fallible Python calls are modelled with `Except`, and the
network calls made by the manager are additionally recorded in an explicit
trace of call events so that "no mutation was performed" is statable.
-/

namespace ContentEngine

/-- Python `\s` / `str.strip()` whitespace on ASCII text: space, tab,
newline, carriage return, vertical tab, form feed. -/
def pyIsSpace (c : Char) : Bool :=
  c = ' ' || c = '\t' || c = '\n' || c = '\x0d' || c = '\x0b' || c = '\x0c'

/-- Python `str.strip()` on a character list: drop leading and trailing
whitespace. -/
def stripChars (s : List Char) : List Char :=
  ((s.dropWhile pyIsSpace).reverse.dropWhile pyIsSpace).reverse

/-- Python `str.strip()` on strings. -/
def pyStrip (s : String) : String :=
  String.mk (stripChars s.toList)

/-- Python `str.lower()` (ASCII). -/
def pyLower (s : String) : String :=
  String.mk (s.toList.map Char.toLower)

/-- One pass of `re.sub(r"(run of p)+", out, text)`: every maximal run of
characters satisfying `p` is replaced by the single character `out`.  The
flag records whether the previous character belonged to a run already
replaced. -/
def collapseRuns (p : Char → Bool) (out : Char) : Bool → List Char → List Char
  | _, [] => []
  | inRun, c :: rest =>
    if p c then
      (if inRun then ([] : List Char) else [out]) ++ collapseRuns p out true rest
    else
      c :: collapseRuns p out false rest

/-- Python `re.sub(r"\s+", " ", s)`. -/
def collapseWs (s : List Char) : List Char :=
  collapseRuns pyIsSpace ' ' false s

/-- Index of the first position at which `pat` occurs as a contiguous block,
scanning left to right (the leftmost match of a literal pattern). -/
def findBlock (pat : List Char) : List Char → Option Nat
  | [] => if pat = [] then some 0 else none
  | c :: rest =>
    if pat.isPrefixOf (c :: rest) then some 0
    else (findBlock pat rest).map (· + 1)

/-- Python `_remove_frontmatter`:
`re.sub(r"^---\n(.*?)\n---\n", "", content, flags=re.DOTALL)`.
The pattern is anchored at the start of the string, so it strips one leading
front-matter block: the prefix `---\n`, then the shortest (non-greedy) body,
then the first subsequent `\n---\n`. -/
def remove_frontmatter (s : List Char) : List Char :=
  if ['-', '-', '-', '\n'].isPrefixOf s then
    match findBlock ['\n', '-', '-', '-', '\n'] (s.drop 4) with
    | some j => s.drop (4 + j + 5)
    | none => s
  else s

/-- Index of the first occurrence of character `c`. -/
def findCharIdx (c : Char) : List Char → Option Nat
  | [] => none
  | d :: rest => if d = c then some 0 else (findCharIdx c rest).map (· + 1)

/-- Length of the leftmost-anchored match of `\s*align="[^"]*"` at the head
of `s`, if any: a maximal whitespace run, the literal `align="`, then
everything up to and including the next `"`.  (The greedy `\s*` can only
succeed after consuming the whole run, since the character after any shorter
run is whitespace and cannot match `a`.) -/
def alignMatchLen (s : List Char) : Option Nat :=
  let w := (s.takeWhile pyIsSpace).length
  let t := s.drop w
  if ['a', 'l', 'i', 'g', 'n', '=', '"'].isPrefixOf t then
    (findCharIdx '"' (t.drop 7)).map (fun k => w + 7 + k + 1)
  else none

/-- `re.sub(r'\s*align="[^"]*"', "", s)`: delete every match, scanning left
to right and resuming after each deleted match.  Fuel-driven structural
recursion; every match consumes at least one character, so `s.length` fuel
suffices. -/
def alignSubAux : Nat → List Char → List Char
  | 0, s => s
  | _ + 1, [] => []
  | fuel + 1, c :: rest =>
    match alignMatchLen (c :: rest) with
    | some k => alignSubAux fuel ((c :: rest).drop k)
    | none => c :: alignSubAux fuel rest

/-- `re.sub(r'\s*align="[^"]*"', "", s)`. -/
def alignSub (s : List Char) : List Char :=
  alignSubAux s.length s

/-- Length of the leftmost-anchored match of `\s*align="<val>"` (a literal
attribute value) at the head of `s`: used by the Hashnode content
transformations, which delete `align="center"`, `align="left"` and
`align="right"` attributes. -/
def alignLitMatchLen (val : List Char) (s : List Char) : Option Nat :=
  let w := (s.takeWhile pyIsSpace).length
  let t := s.drop w
  let pat := ['a', 'l', 'i', 'g', 'n', '=', '"'] ++ val ++ ['"']
  if pat.isPrefixOf t then some (w + pat.length) else none

/-- `re.sub(r'\s*align="<val>"', "", s)` for a literal value `val`. -/
def alignLitSubAux (val : List Char) : Nat → List Char → List Char
  | 0, s => s
  | _ + 1, [] => []
  | fuel + 1, c :: rest =>
    match alignLitMatchLen val (c :: rest) with
    | some k => alignLitSubAux val fuel ((c :: rest).drop k)
    | none => c :: alignLitSubAux val fuel rest

/-- `re.sub(r'\s*align="<val>"', "", s)`. -/
def alignLitSub (val : List Char) (s : List Char) : List Char :=
  alignLitSubAux val s.length s

/-- Python `ContentProcessor.normalize_content_for_comparison`: remove a
leading front-matter block, strip and collapse whitespace runs to single
spaces, then delete `align="…"` attributes. -/
def normalize_content_for_comparison (content : String) : String :=
  let l := remove_frontmatter content.toList
  let l := collapseWs (stripChars l)
  let l := alignSub l
  String.mk l

/-- Python `ContentProcessor._apply_hashnode_transformations`: delete the
HTML alignment attributes `align="center"`, `align="left"`, `align="right"`
(three successive substitutions, in that order). -/
def apply_hashnode_transformations (content : String) : String :=
  let l := alignLitSub "center".toList content.toList
  let l := alignLitSub "left".toList l
  let l := alignLitSub "right".toList l
  String.mk l

/-- Python `ContentProcessor._apply_devto_transformations`: the identity. -/
def apply_devto_transformations (content : String) : String :=
  content

/-- Split a character list on a separator character, Python
`str.split(sep)` with a one-character separator (no run collapsing; the
empty string splits to one empty field). -/
def splitOnChar (sep : Char) : List Char → List (List Char)
  | [] => [[]]
  | c :: rest =>
    match splitOnChar sep rest with
    | [] => [[c]]
    | g :: gs => if c = sep then [] :: g :: gs else (c :: g) :: gs

/-- Python `[t.strip() for t in s.split(",") if t.strip()]`. -/
def splitCommaStripped (s : String) : List String :=
  ((splitOnChar ',' s.toList).map (fun t => String.mk (stripChars t))).filter
    (fun t => t ≠ "")

/-- Python `ContentProcessor._sanitize_tag_for_hashnode`: lower-case and
strip, delete every character that is not alphanumeric, whitespace or a
hyphen, replace whitespace runs with hyphens, collapse hyphen runs, and trim
leading/trailing hyphens. -/
def sanitize_tag_for_hashnode (tag : String) : String :=
  let l := (pyStrip (pyLower tag)).toList
  let l := l.filter (fun c => c.isAlpha || c.isDigit || pyIsSpace c || c = '-')
  let l := collapseRuns pyIsSpace '-' false l
  let l := collapseRuns (fun c => c = '-') '-' false l
  String.mk (trimHyphens l)
where
  /-- Python `str.strip("-")`. -/
  trimHyphens (l : List Char) : List Char :=
    ((l.dropWhile (· = '-')).reverse.dropWhile (· = '-')).reverse

/-- Python `ContentProcessor._sanitize_tag_for_devto`: strip then
lower-case. -/
def sanitize_tag_for_devto (tag : String) : String :=
  pyLower (pyStrip tag)

/-- Python `ContentProcessor.convert_tags_for_platform`: split any
comma-separated entries, strip each tag, then apply the platform tag policy
(Hashnode sanitization, dev.to sanitization, or lower-casing by default).
No branch caps the length of the returned list. -/
def convert_tags_for_platform (tags : List String) (platform : String) :
    List String :=
  if tags = [] then []
  else
    let processed_tags := tags.flatMap (fun tag =>
      if tag.toList.contains ',' then splitCommaStripped tag else [pyStrip tag])
    if pyLower platform = "hashnode" then
      (processed_tags.filter (fun t => t ≠ "")).map sanitize_tag_for_hashnode
    else if pyLower platform = "devto" then
      (processed_tags.filter (fun t => t ≠ "")).map sanitize_tag_for_devto
    else
      (processed_tags.filter (fun t => pyStrip t ≠ "")).map
        (fun t => pyLower (pyStrip t))

/-- Data model `PostContent` (`src/models/post_content.py`): the metadata
and body of one article to publish. -/
structure PostContent where
  title : String
  subtitle : String
  slug : String
  tags : List String
  cover : String
  domain : String
  save_as_draft : Bool
  enable_toc : Bool
  body_markdown : String
  canonical_url : String
  series_name : Option String := none
deriving Repr, DecidableEq

/-- Python `ContentProcessor.generate_canonical_url`: every branch returns
the item's own canonical URL. -/
def generate_canonical_url (post_content : PostContent) (_platform : String) :
    String :=
  post_content.canonical_url

/-- Python `ContentProcessor.process_content_for_platform`: optionally
prepend a generated table of contents, then apply the platform-specific
transformations.  The table-of-contents generator first calls the external
`md_toc` library and falls back to a manual scan on failure; since that
library is outside the repository, the generator is taken as an arbitrary
function `toc` of the body (no claim depends on the TOC text). -/
def process_content_for_platform (toc : String → String)
    (post_content : PostContent) (platform : String) : String :=
  let content := post_content.body_markdown
  let content :=
    if post_content.enable_toc then
      if toc content ≠ "" then toc content ++ "\n\n" ++ content else content
    else content
  if pyLower platform = "hashnode" then apply_hashnode_transformations content
  else if pyLower platform = "devto" then apply_devto_transformations content
  else content

/-- Value stored under the `tags` key of a platform article dictionary: the
manager accepts a comma-separated string, a list, or anything else (treated
as no tags). -/
inductive TagsValue where
  | ofString (s : String)
  | ofList (l : List String)
  | otherValue
deriving Repr, DecidableEq

/-- Platform-side view of an article, as the dictionary returned by
`PlatformClient.get_article`.  Fields are optional because the manager reads
every field with `dict.get` and a default. -/
structure RemoteArticle where
  title : Option String := none
  body_markdown : Option String := none
  tags : Option TagsValue := none
  published : Option Bool := none
  cover_image : Option String := none
deriving Repr, DecidableEq

/-- Exceptions the manager distinguishes (`src/utils/error_handler.py`):
the three custom publishing errors, plus a catch-all for any other Python
exception. -/
inductive PubError where
  | authenticationFailure (msg : String)
  | rateLimitFailure (msg : String)
  | apiFailure (msg : String)
  | otherFailure (msg : String)
deriving Repr, DecidableEq

/-- Whether the exception is one of the three custom publishing errors
(`AuthenticationError`, `RateLimitError`, `APIError`), which the manager
catches by class and re-raises or converts with their own message. -/
def PubError.isCustom : PubError → Bool
  | .authenticationFailure _ => true
  | .rateLimitFailure _ => true
  | .apiFailure _ => true
  | .otherFailure _ => false

/-- Python `str(e)` for a modelled exception. -/
def PubError.message : PubError → String
  | .authenticationFailure m => m
  | .rateLimitFailure m => m
  | .apiFailure m => m
  | .otherFailure m => m

/-- Response dictionary of `publish_article`/`update_article`; the manager
only reads `response.get("id")`. -/
structure ApiResponse where
  id : Option String := none
deriving Repr, DecidableEq

/-- Payload dictionary built by `PublicationManager._create_content_dict`. -/
structure ContentDict where
  title : String
  subtitle : String
  slug : String
  tags : String
  cover : String
  domain : String
  saveAsDraft : Bool
  seriesName : Option String
  canonicalUrl : String
  bodyMarkdown : String
deriving Repr, DecidableEq

/-- Abstract platform client (`src/interfaces/platform_client.py`), modelled
as pure functions from call arguments to either a value or a raised
exception.  `update_article` and `publish_article` may depend on the payload
and the published flag; determinism of the model is harmless because every
claim quantifies over the client. -/
structure PlatformClient where
  find_article_by_title : String → Except PubError (Option String × Bool)
  get_article : String → Bool → Except PubError (Option RemoteArticle)
  publish_article : ContentDict → Bool → Except PubError ApiResponse
  update_article : String → ContentDict → Bool → Except PubError ApiResponse

/-- One network call made by the manager, recorded in a trace. -/
inductive CallEvent where
  | findCall (title : String)
  | getCall (article_id : String) (published : Bool)
  | publishCall (published : Bool)
  | updateCall (article_id : String) (published : Bool)
deriving Repr, DecidableEq

/-- Whether a call event mutates remote state (a create or an update). -/
def CallEvent.isMutation : CallEvent → Bool
  | .publishCall _ => true
  | .updateCall _ _ => true
  | _ => false

/-- Per-platform result record (`PublicationResult` in
`src/models/post_content.py`). -/
structure PublicationResult where
  platform : String
  success : Bool
  action : String
  article_id : Option String := none
  error_message : Option String := none
deriving Repr, DecidableEq

/-- Python `PublicationManager._create_content_dict`: convert the tags for
the platform, join them with commas, compute the canonical URL and assemble
the payload. -/
def create_content_dict (post_content : PostContent)
    (processed_content : String) (platform_name : String) : ContentDict :=
  let platform_tags := convert_tags_for_platform post_content.tags platform_name
  { title := post_content.title
    subtitle := post_content.subtitle
    slug := post_content.slug
    tags := String.intercalate "," platform_tags
    cover := post_content.cover
    domain := post_content.domain
    saveAsDraft := post_content.save_as_draft
    seriesName := post_content.series_name
    canonicalUrl := generate_canonical_url post_content platform_name
    bodyMarkdown := processed_content }

/-- Tag list the manager compares against: `existing_article.get("tags", [])`
converted from a comma-separated string if necessary, or emptied if it is
neither a string nor a list. -/
def remoteTagList (article : RemoteArticle) : List String :=
  match article.tags.getD (.ofList []) with
  | .ofString s => splitCommaStripped s
  | .ofList l => l
  | .otherValue => []

/-- Python `set(a) != set(b)` on string lists: the two sides are unequal as
sets exactly when some element belongs to one and not the other. -/
def pySetNe (a b : List String) : Bool :=
  !(a.all (fun t => b.contains t) && b.all (fun t => a.contains t))

/-- Field comparison of `PublicationManager._needs_update` once the remote
article has been fetched: title (raw), body (both sides normalized), tags
(as sets, after converting a comma-string), published flag, cover image;
the result is the disjunction of the five. -/
def detectChanges (post_content : PostContent) (existing_article : RemoteArticle) :
    Bool :=
  let local_content :=
    normalize_content_for_comparison post_content.body_markdown
  let platform_content :=
    normalize_content_for_comparison (existing_article.body_markdown.getD "")
  let title_changed := post_content.title != existing_article.title.getD ""
  let content_changed := local_content != platform_content
  let tags_changed := pySetNe post_content.tags (remoteTagList existing_article)
  let published_changed :=
    (!post_content.save_as_draft) != existing_article.published.getD false
  let cover_changed := post_content.cover != existing_article.cover_image.getD ""
  [title_changed, content_changed, tags_changed, published_changed,
    cover_changed].any (fun b => b)

/-- Python `PublicationManager._needs_update`: fetch the remote article with
`published=True` first, then `published=False`; if neither fetch returns an
article, report `True`.  Any of the three custom errors is re-raised; any
other exception makes the check report `True`.  The second component is the
trace of `get_article` calls made. -/
def needs_update (post_content : PostContent) (article_id : String)
    (client : PlatformClient) : Except PubError Bool × List CallEvent :=
  match client.get_article article_id true with
  | .error e =>
      (if e.isCustom then .error e else .ok true, [.getCall article_id true])
  | .ok (some existing_article) =>
      (.ok (detectChanges post_content existing_article),
        [.getCall article_id true])
  | .ok none =>
      match client.get_article article_id false with
      | .error e =>
          (if e.isCustom then .error e else .ok true,
            [.getCall article_id true, .getCall article_id false])
      | .ok none =>
          (.ok true, [.getCall article_id true, .getCall article_id false])
      | .ok (some existing_article) =>
          (.ok (detectChanges post_content existing_article),
            [.getCall article_id true, .getCall article_id false])

/-- Python `PublicationManager._publish_to_platform`: look up the article by
title, build the platform payload, then create, update or skip.  All
exceptions propagate to the caller (custom ones re-raised as-is, unexpected
ones logged and re-raised).  The second component is the trace of client
calls made. -/
def publish_to_platform (toc : String → String) (post_content : PostContent)
    (platform_name : String) (client : PlatformClient) :
    Except PubError PublicationResult × List CallEvent :=
  match client.find_article_by_title post_content.title with
  | .error e => (.error e, [.findCall post_content.title])
  | .ok (article_id, _is_published) =>
    let processed_content :=
      process_content_for_platform toc post_content platform_name
    let content_dict :=
      create_content_dict post_content processed_content platform_name
    match article_id with
    | none =>
        match client.publish_article content_dict (!post_content.save_as_draft) with
        | .error e =>
            (.error e,
              [.findCall post_content.title,
                .publishCall (!post_content.save_as_draft)])
        | .ok response =>
            (.ok { platform := platform_name, success := true,
                   action := "created", article_id := response.id },
              [.findCall post_content.title,
                .publishCall (!post_content.save_as_draft)])
    | some article_id =>
        let nu := needs_update post_content article_id client
        match nu.1 with
        | .error e => (.error e, .findCall post_content.title :: nu.2)
        | .ok true =>
            match client.update_article article_id content_dict
                (!post_content.save_as_draft) with
            | .error e =>
                (.error e,
                  .findCall post_content.title :: nu.2 ++
                    [.updateCall article_id (!post_content.save_as_draft)])
            | .ok _response =>
                (.ok { platform := platform_name, success := true,
                       action := "updated", article_id := some article_id },
                  .findCall post_content.title :: nu.2 ++
                    [.updateCall article_id (!post_content.save_as_draft)])
        | .ok false =>
            (.ok { platform := platform_name, success := true,
                   action := "skipped", article_id := some article_id },
              .findCall post_content.title :: nu.2)

/-- Error message recorded by `publish_to_all_platforms` when a platform's
processing raises: the exception's own message for the three custom errors,
a prefixed message for unexpected exceptions. -/
def publishErrorMessage (e : PubError) : String :=
  if e.isCustom then e.message else "Unexpected error: " ++ e.message

/-- Outcome recorded for one platform by `publish_to_all_platforms`: the
result of `_publish_to_platform`, with any raised exception converted to a
failed outcome with action `error`. -/
def platformOutcome (toc : String → String) (post_content : PostContent)
    (platform_name : String) (client : PlatformClient) : PublicationResult :=
  match (publish_to_platform toc post_content platform_name client).1 with
  | .ok result => result
  | .error e =>
      { platform := platform_name, success := false, action := "error",
        error_message := some (publishErrorMessage e) }

/-- Python `PublicationManager.publish_to_all_platforms`: iterate over the
configured platform clients (an ordered association list, as a Python dict),
catch every exception a platform raises, record an `error` outcome for it
and continue with the remaining platforms.  After the loop the source only
logs a partial-failure summary derived from the results.  The second
component is the concatenated trace of client calls. -/
def publish_to_all_platforms (toc : String → String)
    (platform_clients : List (String × PlatformClient))
    (post_content : PostContent) : List PublicationResult × List CallEvent :=
  match platform_clients with
  | [] => ([], [])
  | (platform_name, client) :: rest =>
    let pr := publish_to_platform toc post_content platform_name client
    let outcome :=
      match pr.1 with
      | .ok r => r
      | .error e =>
          { platform := platform_name, success := false, action := "error",
            error_message := some (publishErrorMessage e) }
    let rest_pr := publish_to_all_platforms toc rest post_content
    (outcome :: rest_pr.1, pr.2 ++ rest_pr.2)

/-- Exception classes visible to the retry wrapper
`with_retry_and_rate_limiting` (`src/utils/error_handler.py`).  The first
five are the classes of its two retrying `except` clauses
(`RateLimitError`/`requests.HTTPError`, then
`ConnectionError`/`Timeout`/`RequestException`); an `httpFailure` carries
the response status code and the parsed (truthy) `Retry-After` header.  The
repository's own `APIError` and `AuthenticationError`, and any other
exception, fall through to the final `except Exception` clause. -/
inductive PyExc where
  | rateLimitExc (msg : String)
  | httpFailure (msg : String) (status : Nat) (retryAfter : Option Nat)
  | connectionFailure (msg : String)
  | timeoutFailure (msg : String)
  | requestFailure (msg : String)
  | apiExc (msg : String)
  | authExc (msg : String)
  | otherExc (msg : String)
deriving Repr, DecidableEq

/-- Whether the exception is caught by one of the wrapper's two retrying
clauses; every other exception is re-raised immediately by the final
`except Exception` clause. -/
def PyExc.isRetried : PyExc → Bool
  | .rateLimitExc _ => true
  | .httpFailure _ _ _ => true
  | .connectionFailure _ => true
  | .timeoutFailure _ => true
  | .requestFailure _ => true
  | _ => false

/-- Sleep delay the wrapper computes before retrying `attempt` after
exception `e`: a truthy `Retry-After` header of a 429 response wins
(capped at `maxDelay`); otherwise exponential backoff
`min (baseDelay * backoffFactor ^ attempt) maxDelay`.  A `RateLimitError`
raised by this repository carries no `response` attribute, so it always
falls back to exponential backoff. -/
def retryDelay (baseDelay maxDelay backoffFactor : ℚ) (attempt : Nat)
    (e : PyExc) : ℚ :=
  let backoff := min (baseDelay * backoffFactor ^ attempt) maxDelay
  match e with
  | .httpFailure _ status retryAfter =>
      if status = 429 then
        match retryAfter with
        | some ra => if ra ≠ 0 then min (ra : ℚ) maxDelay else backoff
        | none => backoff
      else backoff
  | _ => backoff

/-- Loop of `with_retry_and_rate_limiting`: invoke the wrapped function
(modelled as a function of the zero-based invocation index); return its
value on success; on a retried exception, either break out with it when the
attempt budget is spent or sleep and try again; re-raise any other exception
at once.  Returns the outcome, the number of invocations made, and the list
of sleep delays. -/
def retryGo (baseDelay maxDelay backoffFactor : ℚ) {α : Type}
    (f : Nat → Except PyExc α) :
    Nat → Nat → Except PyExc α × Nat × List ℚ
  | attempt, remaining =>
    match f attempt with
    | .ok v => (.ok v, attempt + 1, [])
    | .error e =>
      if e.isRetried then
        match remaining with
        | 0 => (.error e, attempt + 1, [])
        | r + 1 =>
          let d := retryDelay baseDelay maxDelay backoffFactor attempt e
          let (res, count, delays) :=
            retryGo baseDelay maxDelay backoffFactor f (attempt + 1) r
          (res, count, d :: delays)
      else (.error e, attempt + 1, [])

/-- Python `with_retry_and_rate_limiting(max_retries, base_delay, max_delay,
backoff_factor)` applied to a function: run attempts `0..max_retries`. -/
def with_retry_and_rate_limiting {α : Type} (max_retries : Nat)
    (baseDelay maxDelay backoffFactor : ℚ) (f : Nat → Except PyExc α) :
    Except PyExc α × Nat × List ℚ :=
  retryGo baseDelay maxDelay backoffFactor f 0 max_retries

/-- Hashnode's tag-count limit, from the Hashnode client
(`src/client/hashnode_client.py`: `tags[:5]  # Hashnode allows max 5 tags`). -/
def hashnodeMaxTags : Nat := 5

/-- Tag slug built by the Hashnode client:
`tag.lower().replace(" ", "-").replace("_", "-")`. -/
def hashnodeTagSlug (tag : String) : String :=
  String.mk ((pyLower tag).toList.map fun c =>
    if c = ' ' then '-' else if c = '_' then '-' else c)

/-- Tag objects (`name`, `slug`) built by the Hashnode client's publish and
update paths: only the first `hashnodeMaxTags` tags are kept, the rest are
dropped silently (`for tag in tags[:5]`). -/
def hashnode_tag_objects (tags : List String) : List (String × String) :=
  (tags.take hashnodeMaxTags).map fun tag => (tag, hashnodeTagSlug tag)

/-!
Specification-side change-detection predicates, written from the spec's
words ("Comparison fields and rule for each", §4.2) for comparison against
the source-side `detectChanges`.
-/

/-- Spec §4.2: "Title: raw string inequality." -/
def titleDiffers (item : PostContent) (remote : RemoteArticle) : Prop :=
  item.title ≠ remote.title.getD ""

/-- Spec §4.2: "Body: both sides passed through the normalization function
before comparison; inequality after normalization triggers update." -/
def bodyDiffers (item : PostContent) (remote : RemoteArticle) : Prop :=
  normalize_content_for_comparison item.body_markdown ≠
    normalize_content_for_comparison (remote.body_markdown.getD "")

/-- Spec §4.2: "Tags: compared as sets (order-insensitive, duplicates
collapsed); any set-difference triggers update." -/
def tagsDifferAsSets (item : PostContent) (remote : RemoteArticle) : Prop :=
  ¬ ∀ t : String, t ∈ item.tags ↔ t ∈ remoteTagList remote

/-- Spec §4.2: "Published status: `not item.draft_flag` compared to the
remote's published flag." -/
def publishedDiffers (item : PostContent) (remote : RemoteArticle) : Prop :=
  (!item.save_as_draft) ≠ remote.published.getD false

/-- Spec §4.2: "Cover image: raw string inequality." -/
def coverDiffers (item : PostContent) (remote : RemoteArticle) : Prop :=
  item.cover ≠ remote.cover_image.getD ""

/-- Remote article obtained by `_needs_update`'s two-step fetch, when it is
obtained without a raised error: the `published=True` read if it returns an
article, otherwise the `published=False` read. -/
def fetchedRemote (client : PlatformClient) (article_id : String) :
    Option RemoteArticle :=
  match client.get_article article_id true with
  | .ok (some a) => some a
  | .ok none =>
      match client.get_article article_id false with
      | .ok r => r
      | .error _ => none
  | .error _ => none

/-- Normal form of whitespace-collapsed text, used to reason about
re-normalization: every whitespace character that occurs is a single space
followed by a non-whitespace character (so there is no leading-run
continuation, no run of two, and no trailing space). -/
def goodTail : List Char → Bool
  | [] => true
  | [c] => !pyIsSpace c
  | c :: d :: rest =>
    if pyIsSpace c then (c == ' ') && !pyIsSpace d && goodTail (d :: rest)
    else goodTail (d :: rest)

/-- Normal form of stripped-and-collapsed text: `goodTail` plus a
non-whitespace first character. -/
def good : List Char → Bool
  | [] => true
  | c :: rest => !pyIsSpace c && goodTail (c :: rest)

/-!
Concrete sample data, used to instantiate the universally quantified
theorems below at explicit inputs.
-/

/-- Sample table-of-contents generator (the empty TOC). -/
def sampleToc : String → String := fun _ => ""

/-- Sample article to publish. -/
def samplePost : PostContent where
  title := "T"
  subtitle := ""
  slug := "t"
  tags := ["x"]
  cover := ""
  domain := "d"
  save_as_draft := false
  enable_toc := false
  body_markdown := "B"
  canonical_url := "https://d/t"

/-- Sample remote article differing from `samplePost` in the title only. -/
def sampleRemoteChanged : RemoteArticle where
  title := some "Old"
  body_markdown := some "B"
  tags := some (.ofList ["x"])
  published := some true
  cover_image := some ""

/-- Sample remote article agreeing with `samplePost` on all five compared
fields. -/
def sampleRemoteSame : RemoteArticle where
  title := some "T"
  body_markdown := some "B"
  tags := some (.ofList ["x"])
  published := some true
  cover_image := some ""

/-- Sample client with no article stored: lookups come back empty and a
publish succeeds. -/
def sampleClientNew : PlatformClient where
  find_article_by_title := fun _ => .ok (none, false)
  get_article := fun _ _ => .ok none
  publish_article := fun _ _ => .ok { id := some "new1" }
  update_article := fun _ _ _ => .ok { id := some "new1" }

/-- Sample client holding `sampleRemoteChanged` under id `id1`, published. -/
def sampleClientChanged : PlatformClient where
  find_article_by_title := fun _ => .ok (some "id1", true)
  get_article := fun _ published =>
    if published then .ok (some sampleRemoteChanged) else .ok none
  publish_article := fun _ _ => .ok { id := some "id1" }
  update_article := fun _ _ _ => .ok { id := some "id1" }

/-- Sample client holding `sampleRemoteSame` under id `id1`, published. -/
def sampleClientSame : PlatformClient where
  find_article_by_title := fun _ => .ok (some "id1", true)
  get_article := fun _ published =>
    if published then .ok (some sampleRemoteSame) else .ok none
  publish_article := fun _ _ => .ok { id := some "id1" }
  update_article := fun _ _ _ => .ok { id := some "id1" }

/-- Sample client whose every operation raises `APIError("boom")`. -/
def sampleClientRaising : PlatformClient where
  find_article_by_title := fun _ => .error (.apiFailure "boom")
  get_article := fun _ _ => .error (.apiFailure "boom")
  publish_article := fun _ _ => .error (.apiFailure "boom")
  update_article := fun _ _ _ => .error (.apiFailure "boom")

/-- Sample wrapped function that fails with transient errors on its first
two invocations and succeeds on the third. -/
def sampleFlaky : Nat → Except PyExc String := fun i =>
  if i = 0 then .error (.connectionFailure "net down")
  else if i = 1 then .error (.rateLimitExc "slow down")
  else .ok "done"

/-- Sample wrapped function that always raises a rate-limit failure. -/
def sampleAlwaysRateLimited : Nat → Except PyExc String := fun _ =>
  .error (.rateLimitExc "slow down")

/-- Sample wrapped function that always raises `APIError("boom")`. -/
def sampleAlwaysApiError : Nat → Except PyExc String := fun _ =>
  .error (.apiExc "boom")

end ContentEngine

namespace ContentEngine

/-! ## Helper lemmas -/

theorem pySetNe_eq_true_iff (a b : List String) :
    pySetNe a b = true ↔ ¬ ∀ t : String, t ∈ a ↔ t ∈ b := by
  have hx : (a.all (fun t => b.contains t) && b.all (fun t => a.contains t)) =
      true ↔ ∀ t : String, t ∈ a ↔ t ∈ b := by
    simp only [Bool.and_eq_true, List.all_eq_true, List.elem_iff]
    constructor
    · rintro ⟨h1, h2⟩ t
      exact ⟨fun ht => h1 t ht, fun ht => h2 t ht⟩
    · intro h
      exact ⟨fun t ht => (h t).1 ht, fun t ht => (h t).2 ht⟩
  rw [pySetNe, Bool.not_eq_true', ← hx]
  exact Bool.eq_false_iff.trans (by rw [ne_eq])

theorem detectChanges_iff (post : PostContent) (art : RemoteArticle) :
    detectChanges post art = true ↔
      titleDiffers post art ∨ bodyDiffers post art ∨ tagsDifferAsSets post art ∨
        publishedDiffers post art ∨ coverDiffers post art := by
  simp only [detectChanges, List.any_cons, List.any_nil, Bool.or_eq_true,
    Bool.or_false, bne_iff_ne, titleDiffers, bodyDiffers, tagsDifferAsSets,
    publishedDiffers, coverDiffers, pySetNe_eq_true_iff]

/-- C3: given that the remote article is successfully fetched (by the
published-first, then-draft two-step read), `_needs_update` reports `True`
if and only if at least one of the five spec-side predicates holds: raw
title inequality, normalized-body inequality, tag difference as sets,
published-flag difference, or raw cover inequality.  In particular, holding
four fields equal and making exactly one differ makes the result `True`. -/
theorem needs_update_iff_some_field_differs (post : PostContent)
    (article_id : String) (client : PlatformClient) (art : RemoteArticle)
    (hfetch : fetchedRemote client article_id = some art) :
    (needs_update post article_id client).1 = Except.ok true ↔
      titleDiffers post art ∨ bodyDiffers post art ∨ tagsDifferAsSets post art ∨
        publishedDiffers post art ∨ coverDiffers post art := by
  rw [fetchedRemote] at hfetch
  rcases hg1 : client.get_article article_id true with e | o1
  · rw [hg1] at hfetch
    simp at hfetch
  · rw [hg1] at hfetch
    rcases o1 with _ | a
    · rcases hg2 : client.get_article article_id false with e | o2
      · rw [hg2] at hfetch
        simp at hfetch
      · rw [hg2] at hfetch
        rcases o2 with _ | a
        · simp at hfetch
        · simp only [Option.some.injEq] at hfetch
          simp only [needs_update, hg1, hg2, Except.ok.injEq, hfetch]
          exact detectChanges_iff post art
    · simp only [Option.some.injEq] at hfetch
      simp only [needs_update, hg1, Except.ok.injEq, hfetch]
      exact detectChanges_iff post art

theorem needs_update_iff_some_field_differs_witness :
    fetchedRemote sampleClientChanged "id1" = some sampleRemoteChanged ∧
      (needs_update samplePost "id1" sampleClientChanged).1 = Except.ok true :=
  ⟨by decide,
    (needs_update_iff_some_field_differs samplePost "id1" sampleClientChanged
      sampleRemoteChanged (by decide)).mpr
      (Or.inl (by unfold titleDiffers; decide))⟩

/-- C1: for every publish invocation and every platform, if the title
lookup reports no existing article the recorded outcome action is
`created` or `error` (never `updated`/`skipped`), and if it reports an
existing article the action is `updated`, `skipped` or `error` (never
`created`). -/
theorem publish_action_matches_lookup (toc : String → String)
    (post : PostContent) (platform_name : String) (client : PlatformClient) :
    (∀ b, client.find_article_by_title post.title = Except.ok (none, b) →
        (platformOutcome toc post platform_name client).action ∈
          (["created", "error"] : List String)) ∧
    (∀ article_id b,
        client.find_article_by_title post.title = Except.ok (some article_id, b) →
        (platformOutcome toc post platform_name client).action ∈
          (["updated", "skipped", "error"] : List String)) := by
  constructor
  · intro b hfind
    rcases hp : client.publish_article
        (create_content_dict post
          (process_content_for_platform toc post platform_name) platform_name)
        (!post.save_as_draft) with e | r
    · simp [platformOutcome, publish_to_platform, hfind, hp]
    · simp [platformOutcome, publish_to_platform, hfind, hp]
  · intro article_id b hfind
    rcases hnu : (needs_update post article_id client).1 with e | bu
    · simp [platformOutcome, publish_to_platform, hfind, hnu]
    · cases bu
      · simp [platformOutcome, publish_to_platform, hfind, hnu]
      · rcases hu : client.update_article article_id
            (create_content_dict post
              (process_content_for_platform toc post platform_name) platform_name)
            (!post.save_as_draft) with e | r
        · simp [platformOutcome, publish_to_platform, hfind, hnu, hu]
        · simp [platformOutcome, publish_to_platform, hfind, hnu, hu]

theorem publish_action_matches_lookup_witness :
    (platformOutcome sampleToc samplePost "devto" sampleClientNew).action ∈
        (["created", "error"] : List String) ∧
      (platformOutcome sampleToc samplePost "devto" sampleClientSame).action ∈
        (["updated", "skipped", "error"] : List String) :=
  ⟨(publish_action_matches_lookup sampleToc samplePost "devto"
      sampleClientNew).1 false rfl,
    (publish_action_matches_lookup sampleToc samplePost "devto"
      sampleClientSame).2 "id1" true rfl⟩

/-- C2: `publish_to_all_platforms` returns exactly one result per supplied
platform, in order; each entry is the platform's own outcome, with any
exception raised while processing that platform converted to a
`success=False`/`action="error"` outcome carrying the exception's message
(prefixed for unexpected exceptions).  No exception propagates, and the
outcome of each platform is independent of the others. -/
theorem publish_isolation_and_coverage (toc : String → String)
    (clients : List (String × PlatformClient)) (post : PostContent) :
    ((publish_to_all_platforms toc clients post).1.length = clients.length) ∧
    (∀ i : Nat,
        (publish_to_all_platforms toc clients post).1.get? i =
          (clients.get? i).map fun pc => platformOutcome toc post pc.1 pc.2) ∧
    (∀ platform_name client e,
        (publish_to_platform toc post platform_name client).1 = Except.error e →
          platformOutcome toc post platform_name client =
            { platform := platform_name, success := false, action := "error",
              article_id := none,
              error_message := some (publishErrorMessage e) }) := by
  refine ⟨?_, ?_, ?_⟩
  · induction clients with
    | nil => rfl
    | cons pc rest ih =>
      cases pc
      simp only [publish_to_all_platforms, List.length_cons]
      rw [ih]
  · intro i
    induction clients generalizing i with
    | nil => simp [publish_to_all_platforms]
    | cons pc rest ih =>
      cases pc with
      | mk platform_name client =>
        cases i with
        | zero =>
          simp only [publish_to_all_platforms, List.get?, Option.map_some',
            platformOutcome]
        | succ j =>
          simp only [publish_to_all_platforms, List.get?]
          exact ih j
  · intro platform_name client e h
    simp [platformOutcome, h]

theorem publish_isolation_and_coverage_witness :
    platformOutcome sampleToc samplePost "hashnode" sampleClientRaising =
      { platform := "hashnode", success := false, action := "error",
        article_id := none,
        error_message := some (publishErrorMessage (.apiFailure "boom")) } :=
  (publish_isolation_and_coverage sampleToc [] samplePost).2.2 "hashnode"
    sampleClientRaising (.apiFailure "boom") rfl

/-- C10: an empty platform-client map is not an error: publishing to no
platforms returns the empty result list (and makes no client calls). -/
theorem publish_empty_client_map (toc : String → String) (post : PostContent) :
    publish_to_all_platforms toc [] post = ([], []) :=
  rfl

theorem needs_update_trace_reads_only (post : PostContent) (article_id : String)
    (client : PlatformClient) :
    ((needs_update post article_id client).2).all (fun ev => !ev.isMutation) =
      true := by
  rcases h1 : client.get_article article_id true with e | o
  · simp [needs_update, h1, CallEvent.isMutation]
  · rcases o with _ | a
    · rcases h2 : client.get_article article_id false with e | o2
      · simp [needs_update, h1, h2, CallEvent.isMutation]
      · rcases o2 with _ | a <;> simp [needs_update, h1, h2, CallEvent.isMutation]
    · simp [needs_update, h1, CallEvent.isMutation]

/-- C5: when the lookup finds an existing article and change detection
reports no changes, the platform's outcome is a successful `skipped` and
the trace of client calls contains no mutation (`publish_article` or
`update_article`) event. -/
theorem skipped_outcome_performs_no_mutation (toc : String → String)
    (post : PostContent) (platform_name : String) (client : PlatformClient)
    (article_id : String) (pub : Bool)
    (hfind : client.find_article_by_title post.title =
      Except.ok (some article_id, pub))
    (hnochange : (needs_update post article_id client).1 = Except.ok false) :
    (publish_to_platform toc post platform_name client).1 =
      Except.ok { platform := platform_name, success := true,
                  action := "skipped", article_id := some article_id,
                  error_message := none } ∧
    ((publish_to_platform toc post platform_name client).2).all
      (fun ev => !ev.isMutation) = true := by
  constructor
  · simp [publish_to_platform, hfind, hnochange]
  · have h := needs_update_trace_reads_only post article_id client
    simp only [publish_to_platform, hfind, hnochange, List.all_cons,
      CallEvent.isMutation, Bool.not_false, Bool.true_and]
    exact h

theorem skipped_outcome_performs_no_mutation_witness :
    (publish_to_platform sampleToc samplePost "devto" sampleClientSame).1 =
      Except.ok { platform := "devto", success := true, action := "skipped",
                  article_id := some "id1", error_message := none } ∧
    ((publish_to_platform sampleToc samplePost "devto" sampleClientSame).2).all
      (fun ev => !ev.isMutation) = true :=
  skipped_outcome_performs_no_mutation sampleToc samplePost "devto"
    sampleClientSame "id1" true rfl (by rfl)

/-- C6: `_needs_update` reads the remote article with `published=True`
first; only when that read returns no article does it read with
`published=False`; and when neither read returns an article the check
reports `True` (fail open toward re-publishing). -/
theorem needs_update_fetch_order (post : PostContent) (article_id : String)
    (client : PlatformClient) :
    (∀ art, client.get_article article_id true = Except.ok (some art) →
        (needs_update post article_id client).2 =
          [CallEvent.getCall article_id true]) ∧
    (client.get_article article_id true = Except.ok none →
        (needs_update post article_id client).2 =
          [CallEvent.getCall article_id true,
            CallEvent.getCall article_id false]) ∧
    (client.get_article article_id true = Except.ok none →
      client.get_article article_id false = Except.ok none →
        (needs_update post article_id client).1 = Except.ok true) := by
  refine ⟨?_, ?_, ?_⟩
  · intro art h1
    simp [needs_update, h1]
  · intro h1
    rcases h2 : client.get_article article_id false with e | o2
    · simp [needs_update, h1, h2]
    · rcases o2 with _ | a <;> simp [needs_update, h1, h2]
  · intro h1 h2
    simp [needs_update, h1, h2]

theorem needs_update_fetch_order_witness :
    (needs_update samplePost "id9" sampleClientNew).2 =
        [CallEvent.getCall "id9" true, CallEvent.getCall "id9" false] ∧
      (needs_update samplePost "id9" sampleClientNew).1 = Except.ok true :=
  ⟨(needs_update_fetch_order samplePost "id9" sampleClientNew).2.1 rfl,
    (needs_update_fetch_order samplePost "id9" sampleClientNew).2.2 rfl rfl⟩

/-! ## Retry wrapper lemmas -/

theorem retryGo_ok_step (b m k : ℚ) {α : Type} (f : Nat → Except PyExc α)
    (attempt rem : Nat) (v : α) (h : f attempt = Except.ok v) :
    retryGo b m k f attempt rem = (.ok v, attempt + 1, []) := by
  rw [retryGo, h]

theorem retryGo_stop_step (b m k : ℚ) {α : Type} (f : Nat → Except PyExc α)
    (attempt : Nat) (e : PyExc) (h : f attempt = Except.error e)
    (hr : e.isRetried = true) :
    retryGo b m k f attempt 0 = (.error e, attempt + 1, []) := by
  rw [retryGo, h]
  simp [hr]

theorem retryGo_noretry_step (b m k : ℚ) {α : Type} (f : Nat → Except PyExc α)
    (attempt rem : Nat) (e : PyExc) (h : f attempt = Except.error e)
    (hr : e.isRetried = false) :
    retryGo b m k f attempt rem = (.error e, attempt + 1, []) := by
  rw [retryGo, h]
  simp [hr]

theorem retryGo_retry_step (b m k : ℚ) {α : Type} (f : Nat → Except PyExc α)
    (attempt r : Nat) (e : PyExc) (h : f attempt = Except.error e)
    (hr : e.isRetried = true) :
    retryGo b m k f attempt (r + 1) =
      ((retryGo b m k f (attempt + 1) r).1,
        (retryGo b m k f (attempt + 1) r).2.1,
        retryDelay b m k attempt e :: (retryGo b m k f (attempt + 1) r).2.2) := by
  rw [retryGo, h]
  simp [hr]

theorem retryGo_exhausts (b m k : ℚ) {α : Type} (f : Nat → Except PyExc α)
    (e : PyExc) (hf : ∀ i, f i = Except.error e) (hr : e.isRetried = true) :
    ∀ rem attempt, retryGo b m k f attempt rem =
      (.error e, attempt + rem + 1,
        (List.range rem).map fun j => retryDelay b m k (attempt + j) e) := by
  intro rem
  induction rem with
  | zero =>
    intro attempt
    simpa using retryGo_stop_step b m k f attempt e (hf attempt) hr
  | succ r ih =>
    intro attempt
    rw [retryGo_retry_step b m k f attempt r e (hf attempt) hr, ih (attempt + 1)]
    refine Prod.ext rfl (Prod.ext (by simp; omega) ?_)
    simp only [List.range_succ_eq_map, List.map_cons, List.map_map]
    refine congrArg₂ _ (by rw [Nat.add_zero]) ?_
    refine List.map_congr_left fun j _ => ?_
    simp only [Function.comp_apply]
    have harith : attempt + 1 + j = attempt + j.succ := by omega
    rw [harith]

/-- C7: under `max_retries=2`, a wrapped function that fails twice with a
failure class the wrapper retries and then succeeds yields the success value
after exactly 3 invocations; a wrapped function that always raises a
rate-limit failure makes the wrapper re-raise that failure after exactly 3
invocations. -/
theorem retry_wrapper_attempt_counts (baseDelay maxDelay backoffFactor : ℚ)
    {α : Type} :
    (∀ (f : Nat → Except PyExc α) (v : α) (e0 e1 : PyExc),
        f 0 = Except.error e0 → e0.isRetried = true →
        f 1 = Except.error e1 → e1.isRetried = true →
        f 2 = Except.ok v →
        (with_retry_and_rate_limiting 2 baseDelay maxDelay backoffFactor f).1 =
            Except.ok v ∧
          (with_retry_and_rate_limiting 2 baseDelay maxDelay backoffFactor
            f).2.1 = 3) ∧
    (∀ (f : Nat → Except PyExc α) (msg : String),
        (∀ i, f i = Except.error (.rateLimitExc msg)) →
        (with_retry_and_rate_limiting 2 baseDelay maxDelay backoffFactor f).1 =
            Except.error (.rateLimitExc msg) ∧
          (with_retry_and_rate_limiting 2 baseDelay maxDelay backoffFactor
            f).2.1 = 3) := by
  constructor
  · intro f v e0 e1 h0 hr0 h1 hr1 h2
    have s0 : retryGo baseDelay maxDelay backoffFactor f 0 2 =
        ((retryGo baseDelay maxDelay backoffFactor f 1 1).1,
          (retryGo baseDelay maxDelay backoffFactor f 1 1).2.1,
          retryDelay baseDelay maxDelay backoffFactor 0 e0 ::
            (retryGo baseDelay maxDelay backoffFactor f 1 1).2.2) :=
      retryGo_retry_step baseDelay maxDelay backoffFactor f 0 1 e0 h0 hr0
    have s1 : retryGo baseDelay maxDelay backoffFactor f 1 1 =
        ((retryGo baseDelay maxDelay backoffFactor f 2 0).1,
          (retryGo baseDelay maxDelay backoffFactor f 2 0).2.1,
          retryDelay baseDelay maxDelay backoffFactor 1 e1 ::
            (retryGo baseDelay maxDelay backoffFactor f 2 0).2.2) :=
      retryGo_retry_step baseDelay maxDelay backoffFactor f 1 0 e1 h1 hr1
    have s2 : retryGo baseDelay maxDelay backoffFactor f 2 0 =
        (.ok v, 3, []) :=
      retryGo_ok_step baseDelay maxDelay backoffFactor f 2 0 v h2
    rw [with_retry_and_rate_limiting, s0, s1, s2]
    exact ⟨rfl, rfl⟩
  · intro f msg hf
    have h := retryGo_exhausts baseDelay maxDelay backoffFactor f
      (.rateLimitExc msg) hf rfl 2 0
    rw [with_retry_and_rate_limiting, h]
    exact ⟨rfl, rfl⟩

theorem retry_wrapper_attempt_counts_witness :
    ((with_retry_and_rate_limiting 2 1 60 2 sampleFlaky).1 =
        Except.ok "done" ∧
      (with_retry_and_rate_limiting 2 1 60 2 sampleFlaky).2.1 = 3) ∧
    ((with_retry_and_rate_limiting 2 1 60 2 sampleAlwaysRateLimited).1 =
        Except.error (.rateLimitExc "slow down") ∧
      (with_retry_and_rate_limiting 2 1 60 2 sampleAlwaysRateLimited).2.1 = 3) :=
  ⟨(retry_wrapper_attempt_counts 1 60 2).1 sampleFlaky "done"
      (.connectionFailure "net down") (.rateLimitExc "slow down")
      rfl rfl rfl rfl rfl,
    (retry_wrapper_attempt_counts 1 60 2).2 sampleAlwaysRateLimited
      "slow down" (fun _ => rfl)⟩

/-- C8 counterexample: a generic API failure raised as the repository's
`APIError` is not retried at all.  With `max_retries=3` a function that
always raises `APIError` is invoked exactly once — not the 4 invocations a
retried-to-exhaustion failure would get — and the error propagates
immediately with no backoff delays. -/
theorem api_error_not_retried :
    with_retry_and_rate_limiting 3 1 60 2 sampleAlwaysApiError =
        (Except.error (.apiExc "boom"), 1, []) ∧
      (1 : Nat) ≠ 3 + 1 :=
  ⟨rfl, by decide⟩

/-- C8 (amended): failures of the classes named by the wrapper's two
retrying `except` clauses — rate-limit failures, HTTP transport errors, and
network errors — are retried with a backoff delay per retry, up to the
retry budget, and surfaced only after `max_retries + 1` invocations; but a
generic `APIError` raised by the wrapped call falls through to the final
`except Exception` clause and propagates on its first raise, without any
retry.  Authentication failures are likewise never retried. -/
theorem retry_classification (maxR : Nat) (b m k : ℚ) :
    (∀ {α : Type} (f : Nat → Except PyExc α) (e : PyExc),
        (∀ i, f i = Except.error e) → e.isRetried = true →
        with_retry_and_rate_limiting maxR b m k f =
          (.error e, maxR + 1,
            (List.range maxR).map fun j => retryDelay b m k j e)) ∧
    (∀ {α : Type} (f : Nat → Except PyExc α) (msg : String),
        f 0 = Except.error (.apiExc msg) →
        with_retry_and_rate_limiting maxR b m k f =
          (.error (.apiExc msg), 1, [])) ∧
    (∀ msg, (PyExc.apiExc msg).isRetried = false ∧
      (PyExc.authExc msg).isRetried = false) := by
  refine ⟨?_, ?_, fun _ => ⟨rfl, rfl⟩⟩
  · intro α f e hf hr
    have h := retryGo_exhausts b m k f e hf hr maxR 0
    rw [with_retry_and_rate_limiting, h]
    simp only [Nat.zero_add]
  · intro α f msg h0
    rw [with_retry_and_rate_limiting]
    exact retryGo_noretry_step b m k f 0 maxR (.apiExc msg) h0 rfl

theorem retry_classification_witness :
    with_retry_and_rate_limiting 2 1 60 2 sampleAlwaysRateLimited =
        (Except.error (.rateLimitExc "slow down"), 3,
          (List.range 2).map fun j =>
            retryDelay 1 60 2 j (.rateLimitExc "slow down")) ∧
      with_retry_and_rate_limiting 2 1 60 2 sampleAlwaysApiError =
        (Except.error (.apiExc "boom"), 1, []) :=
  ⟨(retry_classification 2 1 60 2).1 sampleAlwaysRateLimited
      (.rateLimitExc "slow down") (fun _ => rfl) rfl,
    (retry_classification 2 1 60 2).2.1 sampleAlwaysApiError "boom" rfl⟩

/-- C9 counterexample: `convert_tags_for_platform` does not cap the list at
Hashnode's 5-tag maximum — six tags in give six tags out. -/
theorem tag_conversion_does_not_cap :
    convert_tags_for_platform ["t1", "t2", "t3", "t4", "t5", "t6"] "hashnode" =
        ["t1", "t2", "t3", "t4", "t5", "t6"] ∧
      hashnodeMaxTags <
        (convert_tags_for_platform ["t1", "t2", "t3", "t4", "t5", "t6"]
          "hashnode").length := by
  decide

/-- C9 (amended): the Hashnode tag policy lower-cases each tag, strips
non-alphanumeric characters except hyphens, collapses whitespace to
hyphens, collapses repeated hyphens and trims leading/trailing hyphens, so
`["C++", "Node.js", "Web Development"]` converts to
`["c", "nodejs", "web-development"]`; but the conversion function itself
does not cap the list length.  The cap at Hashnode's 5-tag maximum is
applied by the Hashnode client when it builds tag objects (`tags[:5]`),
keeping the first five tags and silently dropping the rest without
error. -/
theorem hashnode_tag_policy :
    convert_tags_for_platform ["C++", "Node.js", "Web Development"]
        "hashnode" = ["c", "nodejs", "web-development"] ∧
    (∀ tags : List String,
        (hashnode_tag_objects tags).map Prod.fst = tags.take hashnodeMaxTags) ∧
    (∀ tags : List String,
        (hashnode_tag_objects tags).length = min hashnodeMaxTags tags.length) := by
  refine ⟨by decide, ?_, ?_⟩
  · intro tags
    simp only [hashnode_tag_objects, List.map_map]
    have hfst : (Prod.fst ∘ fun tag : String => (tag, hashnodeTagSlug tag)) = id :=
      rfl
    rw [hfst, List.map_id]
  · intro tags
    simp [hashnode_tag_objects, List.length_take]

/-! ## Normalization lemmas -/

theorem mem_collapseRuns {p : Char → Bool} {out c : Char} {l : List Char}
    {b : Bool} (h : c ∈ collapseRuns p out b l) :
    c = out ∨ (c ∈ l ∧ p c = false) := by
  induction l generalizing b with
  | nil => simp [collapseRuns] at h
  | cons d rest ih =>
    rw [collapseRuns] at h
    cases hd : p d with
    | true =>
      rw [if_pos hd] at h
      rcases List.mem_append.mp h with h1 | h2
      · cases b with
        | true => simp at h1
        | false =>
          simp at h1
          exact Or.inl h1
      · rcases ih h2 with h3 | ⟨hm, hpc⟩
        · exact Or.inl h3
        · exact Or.inr ⟨List.mem_cons_of_mem _ hm, hpc⟩
    | false =>
      rw [if_neg (by simp [hd])] at h
      rcases List.mem_cons.mp h with rfl | h2
      · exact Or.inr ⟨List.mem_cons_self _ _, hd⟩
      · rcases ih h2 with h3 | ⟨hm, hpc⟩
        · exact Or.inl h3
        · exact Or.inr ⟨List.mem_cons_of_mem _ hm, hpc⟩

theorem remove_frontmatter_subset (l : List Char) :
    remove_frontmatter l ⊆ l := by
  rw [remove_frontmatter]
  split
  · split
    · exact List.drop_subset _ _
    · exact List.Subset.refl _
  · exact List.Subset.refl _

theorem stripChars_subset (l : List Char) : stripChars l ⊆ l := by
  intro c hc
  rw [stripChars, List.mem_reverse] at hc
  have h1 := (List.dropWhile_sublist _).subset hc
  rw [List.mem_reverse] at h1
  exact (List.dropWhile_sublist _).subset h1

theorem alignSubAux_subset (fuel : Nat) : ∀ l, alignSubAux fuel l ⊆ l := by
  induction fuel with
  | zero => intro l; exact List.Subset.refl _
  | succ n ih =>
    intro l
    cases l with
    | nil => simp [alignSubAux]
    | cons c rest =>
      rw [alignSubAux]
      cases halign : alignMatchLen (c :: rest) with
      | some k => exact (ih _).trans (List.drop_subset _ _)
      | none =>
        intro a ha
        rcases List.mem_cons.mp ha with rfl | h2
        · exact List.mem_cons_self _ _
        · exact List.mem_cons_of_mem _ (ih rest h2)

theorem alignMatchLen_quote_mem {l : List Char} {k : Nat}
    (h : alignMatchLen l = some k) : '"' ∈ l := by
  rw [alignMatchLen] at h
  split at h
  · next hpre =>
    rw [List.isPrefixOf_iff_prefix] at hpre
    exact List.drop_subset _ _ (hpre.subset (by decide))
  · simp at h

theorem alignSubAux_eq_of_no_quote (fuel : Nat) :
    ∀ l, '"' ∉ l → alignSubAux fuel l = l := by
  induction fuel with
  | zero => intro l _; rfl
  | succ n ih =>
    intro l hq
    cases l with
    | nil => rfl
    | cons c rest =>
      have hm : alignMatchLen (c :: rest) = none := by
        cases halign : alignMatchLen (c :: rest) with
        | none => rfl
        | some k => exact absurd (alignMatchLen_quote_mem halign) hq
      rw [alignSubAux, hm]
      rw [ih rest (fun h => hq (List.mem_cons_of_mem _ h))]

theorem alignSub_eq_of_no_quote {l : List Char} (h : '"' ∉ l) :
    alignSub l = l :=
  alignSubAux_eq_of_no_quote _ l h

theorem remove_frontmatter_eq_of_no_newline {l : List Char}
    (h : '\n' ∉ l) : remove_frontmatter l = l := by
  have hnp : ¬ (['-', '-', '-', '\n'].isPrefixOf l = true) := fun hpre =>
    h ((List.isPrefixOf_iff_prefix.mp hpre).subset (by decide))
  rw [remove_frontmatter, if_neg hnp]

theorem goodTail_cons_not_space {c : Char} {rest : List Char}
    (hc : pyIsSpace c = false) : goodTail (c :: rest) = goodTail rest := by
  cases rest with
  | nil => simp [goodTail, hc]
  | cons d r => simp [goodTail, hc]

theorem goodTail_cons_space {c d : Char} {rest : List Char}
    (hc : pyIsSpace c = true) :
    goodTail (c :: d :: rest) =
      ((c == ' ') && !pyIsSpace d && goodTail (d :: rest)) := by
  simp [goodTail, hc]

theorem good_to_goodTail {l : List Char} (h : good l = true) :
    goodTail l = true := by
  cases l with
  | nil => rfl
  | cons c rest =>
    rw [good, Bool.and_eq_true] at h
    exact h.2

theorem collapse_true_head (l : List Char) :
    ∀ c t, collapseRuns pyIsSpace ' ' true l = c :: t → pyIsSpace c = false := by
  induction l with
  | nil => intro c t h; simp [collapseRuns] at h
  | cons d rest ih =>
    intro c t h
    cases hd : pyIsSpace d with
    | true =>
      rw [collapseRuns, if_pos hd] at h
      simp only [List.nil_append] at h
      exact ih c t (by simpa using h)
    | false =>
      rw [collapseRuns, if_neg (by simp [hd])] at h
      injection h with h1 _
      subst h1
      exact hd

theorem collapse_true_ne_nil :
    ∀ l : List Char, l ≠ [] →
      (∀ c, l.getLast? = some c → pyIsSpace c = false) →
      collapseRuns pyIsSpace ' ' true l ≠ [] := by
  intro l
  induction l with
  | nil => intro hne _; exact absurd rfl hne
  | cons d rest ih =>
    intro _ hlast
    cases hd : pyIsSpace d with
    | false =>
      rw [collapseRuns, if_neg (by simp [hd])]
      exact List.cons_ne_nil _ _
    | true =>
      rw [collapseRuns, if_pos hd]
      simp only [List.nil_append]
      cases rest with
      | nil => exact absurd (hlast d rfl) (by simp [hd])
      | cons e r =>
        have hlast' : ∀ c, (e :: r).getLast? = some c → pyIsSpace c = false :=
          fun c hc => hlast c (by rw [List.getLast?_cons_cons]; exact hc)
        simpa using ih (List.cons_ne_nil _ _) hlast'

theorem goodTail_collapse :
    ∀ l : List Char, (∀ c, l.getLast? = some c → pyIsSpace c = false) →
      ∀ b, goodTail (collapseRuns pyIsSpace ' ' b l) = true := by
  intro l
  induction l with
  | nil => intro _ b; rfl
  | cons d rest ih =>
    intro hlast b
    have hlast' : rest ≠ [] →
        ∀ c, rest.getLast? = some c → pyIsSpace c = false := by
      intro hne c hc
      apply hlast
      cases rest with
      | nil => exact absurd rfl hne
      | cons e r => rw [List.getLast?_cons_cons]; exact hc
    cases hd : pyIsSpace d with
    | false =>
      rw [collapseRuns, if_neg (by simp [hd])]
      cases hcol : collapseRuns pyIsSpace ' ' false rest with
      | nil => simp [goodTail, hd]
      | cons c t =>
        rw [goodTail_cons_not_space hd, ← hcol]
        cases rest with
        | nil => simp [collapseRuns] at hcol
        | cons e r => exact ih (hlast' (List.cons_ne_nil _ _)) false
    | true =>
      rw [collapseRuns, if_pos hd]
      cases b with
      | true =>
        rw [if_pos rfl]
        simp only [List.nil_append]
        cases rest with
        | nil => rfl
        | cons e r => exact ih (hlast' (List.cons_ne_nil _ _)) true
      | false =>
        rw [if_neg (by simp)]
        simp only [List.singleton_append]
        cases rest with
        | nil => exact absurd (hlast d rfl) (by simp [hd])
        | cons e r =>
          have hlr : ∀ c, (e :: r).getLast? = some c → pyIsSpace c = false :=
            hlast' (List.cons_ne_nil _ _)
          have hne := collapse_true_ne_nil (e :: r) (List.cons_ne_nil _ _) hlr
          cases hcol : collapseRuns pyIsSpace ' ' true (e :: r) with
          | nil => exact absurd hcol hne
          | cons c t =>
            rw [goodTail_cons_space (by decide)]
            have hc := collapse_true_head (e :: r) c t hcol
            have hgt : goodTail (c :: t) = true := by
              rw [← hcol]; exact ih hlr true
            simp [hc, hgt]

theorem dropWhile_head_false {p : Char → Bool} :
    ∀ (l : List Char) c t, l.dropWhile p = c :: t → p c = false := by
  intro l
  induction l with
  | nil => intro c t h; simp at h
  | cons d rest ih =>
    intro c t h
    rw [List.dropWhile_cons] at h
    split at h
    · exact ih c t h
    · next hd =>
      injection h with h1 _
      subst h1
      exact Bool.eq_false_iff.mpr hd

theorem suffix_getLast? {Y X : List Char} (h : Y <:+ X) (hne : Y ≠ []) :
    X.getLast? = Y.getLast? := by
  obtain ⟨w, rfl⟩ := h
  rw [List.getLast?_append]
  cases Y with
  | nil => exact absurd rfl hne
  | cons c t =>
    cases hy : (c :: t).getLast? with
    | none => simp at hy
    | some a => rfl

theorem stripChars_head {l : List Char} {c : Char} {t : List Char}
    (h : stripChars l = c :: t) : pyIsSpace c = false := by
  rw [stripChars] at h
  have h1 : (List.dropWhile pyIsSpace
      ((List.dropWhile pyIsSpace l).reverse)).getLast? = some c := by
    rw [← List.head?_reverse, h]
    rfl
  have h2 : ((List.dropWhile pyIsSpace l).reverse).getLast? = some c := by
    rw [suffix_getLast? (List.dropWhile_suffix _) ?_]
    · exact h1
    · intro hx
      rw [hx] at h1
      simp at h1
  rw [List.getLast?_reverse] at h2
  cases hdw : List.dropWhile pyIsSpace l with
  | nil => rw [hdw] at h2; simp at h2
  | cons y ys =>
    rw [hdw] at h2
    simp only [List.head?_cons, Option.some.injEq] at h2
    subst h2
    exact dropWhile_head_false l y ys hdw

theorem stripChars_getLast? {l : List Char} {c : Char}
    (h : (stripChars l).getLast? = some c) : pyIsSpace c = false := by
  rw [stripChars, List.getLast?_reverse] at h
  cases hdw : List.dropWhile pyIsSpace ((List.dropWhile pyIsSpace l).reverse) with
  | nil => rw [hdw] at h; simp at h
  | cons y ys =>
    rw [hdw] at h
    simp only [List.head?_cons, Option.some.injEq] at h
    subst h
    exact dropWhile_head_false _ y ys hdw

theorem good_collapse_strip (l : List Char) :
    good (collapseWs (stripChars l)) = true := by
  cases hs : stripChars l with
  | nil => rfl
  | cons c rest =>
    have hc : pyIsSpace c = false := stripChars_head hs
    have hlast : ∀ x, (c :: rest).getLast? = some x → pyIsSpace x = false := by
      intro x hx
      exact stripChars_getLast? (l := l) (by rw [hs]; exact hx)
    have hcons : collapseRuns pyIsSpace ' ' false (c :: rest) =
        c :: collapseRuns pyIsSpace ' ' false rest := by
      rw [collapseRuns, if_neg (by simp [hc])]
    rw [collapseWs, hcons, good, Bool.and_eq_true]
    refine ⟨by simp [hc], ?_⟩
    rw [← hcons]
    exact goodTail_collapse (c :: rest) hlast false

theorem collapse_fix :
    ∀ l : List Char, goodTail l = true →
      collapseRuns pyIsSpace ' ' false l = l := by
  intro l
  induction l with
  | nil => intro _; rfl
  | cons c rest ih =>
    intro h
    cases hb : pyIsSpace c with
    | false =>
      rw [collapseRuns, if_neg (by simp [hb])]
      rw [goodTail_cons_not_space hb] at h
      rw [ih h]
    | true =>
      cases rest with
      | nil =>
        rw [goodTail] at h
        simp [hb] at h
      | cons d r =>
        rw [goodTail_cons_space hb, Bool.and_eq_true, Bool.and_eq_true] at h
        obtain ⟨⟨hceq, hd⟩, hg⟩ := h
        have hceq' : c = ' ' := by simpa using hceq
        have hd' : pyIsSpace d = false := by simpa using hd
        have hrec := ih hg
        rw [collapseRuns, if_neg (by simp [hd'])] at hrec
        injection hrec with _ hrec2
        rw [collapseRuns, if_pos hb, if_neg (by simp),
          List.singleton_append, collapseRuns, if_neg (by simp [hd']), hrec2,
          hceq']

theorem goodTail_getLast :
    ∀ (l : List Char) x, goodTail l = true → l.getLast? = some x →
      pyIsSpace x = false := by
  intro l
  induction l with
  | nil => intro x _ h; simp at h
  | cons c rest ih =>
    intro x hg hl
    cases rest with
    | nil =>
      rw [goodTail] at hg
      simp only [List.getLast?_singleton, Option.some.injEq] at hl
      subst hl
      simpa using hg
    | cons d r =>
      rw [List.getLast?_cons_cons] at hl
      have hg' : goodTail (d :: r) = true := by
        cases hb : pyIsSpace c with
        | false => rw [goodTail_cons_not_space hb] at hg; exact hg
        | true =>
          rw [goodTail_cons_space hb, Bool.and_eq_true] at hg
          exact hg.2
      exact ih x hg' hl

theorem strip_fix {l : List Char} (hg : good l = true) : stripChars l = l := by
  cases l with
  | nil => rfl
  | cons c rest =>
    rw [good, Bool.and_eq_true] at hg
    obtain ⟨hc, ht⟩ := hg
    have hc' : pyIsSpace c = false := by simpa using hc
    have h1 : List.dropWhile pyIsSpace (c :: rest) = c :: rest := by
      rw [List.dropWhile_cons, if_neg (by simp [hc'])]
    have h2 : List.dropWhile pyIsSpace ((c :: rest).reverse) =
        (c :: rest).reverse := by
      cases hr : (c :: rest).reverse with
      | nil => simp at hr
      | cons y t =>
        have hy : (c :: rest).getLast? = some y := by
          rw [← List.head?_reverse, hr]
          rfl
        have := goodTail_getLast (c :: rest) y ht hy
        rw [List.dropWhile_cons, if_neg (by simp [this])]
    rw [stripChars, h1, h2, List.reverse_reverse]

/-- After one pass of strip-collapse-align, a further normalization pass is
the identity, provided the text contains no double-quote character (so that
attribute removal cannot find a new match). -/
theorem normalize_pass_stable {y : List Char} (hq : '"' ∉ y)
    (hgood : good y = true) (hnl : '\n' ∉ y) :
    alignSub (collapseWs (stripChars (remove_frontmatter y))) = y := by
  rw [remove_frontmatter_eq_of_no_newline hnl, strip_fix hgood, collapseWs,
    collapse_fix y (good_to_goodTail hgood), alignSub_eq_of_no_quote hq]

/-- C4 counterexample: `normalize_content_for_comparison` is not idempotent.
Deleting the attribute `align="a"` from `align align="a"="x"` splices the
surrounding text into a brand-new `align="x"` attribute, which only a second
pass removes: the first pass yields `align="x"`, the second pass yields the
empty string. -/
theorem normalize_not_idempotent :
    normalize_content_for_comparison
        (normalize_content_for_comparison "align align=\"a\"=\"x\"") ≠
      normalize_content_for_comparison "align align=\"a\"=\"x\"" ∧
    normalize_content_for_comparison "align align=\"a\"=\"x\"" =
      "align=\"x\"" ∧
    normalize_content_for_comparison "align=\"x\"" = "" := by
  refine ⟨by decide, by decide, by decide⟩

/-- C4 (amended): `normalize_content_for_comparison` strips a leading
front-matter block — on `"---\na: 1\n---\nBody"` it agrees with the
normalization of `"Body"` and its result contains no `---` — and it is
idempotent on every input that contains no double-quote character.  (On
inputs with quotes, removing one `align="…"` attribute can splice the
surrounding text into a new attribute that only another pass would remove,
so unrestricted idempotence fails; see the counterexample.) -/
theorem normalize_idempotent_on_quote_free :
    (∀ s : String, '"' ∉ s.toList →
        normalize_content_for_comparison (normalize_content_for_comparison s) =
          normalize_content_for_comparison s) ∧
    normalize_content_for_comparison "---\na: 1\n---\nBody" =
        normalize_content_for_comparison "Body" ∧
    ¬ ("---".toList <:+:
        (normalize_content_for_comparison "---\na: 1\n---\nBody").toList) := by
  refine ⟨?_, by decide, by decide⟩
  intro s hq
  have hqy : '"' ∉ collapseWs (stripChars (remove_frontmatter s.toList)) := by
    intro hy
    rcases mem_collapseRuns hy with h | ⟨hm, _⟩
    · exact absurd h (by decide)
    · exact hq (remove_frontmatter_subset s.toList (stripChars_subset _ hm))
  have hnl : '\n' ∉ collapseWs (stripChars (remove_frontmatter s.toList)) := by
    intro hy
    rcases mem_collapseRuns hy with h | ⟨_, hf⟩
    · exact absurd h (by decide)
    · exact absurd hf (by decide)
  have hgood : good (collapseWs (stripChars (remove_frontmatter s.toList))) =
      true := good_collapse_strip _
  have hnorm : normalize_content_for_comparison s =
      String.mk (collapseWs (stripChars (remove_frontmatter s.toList))) :=
    congrArg String.mk (alignSub_eq_of_no_quote hqy)
  rw [hnorm]
  exact congrArg String.mk (normalize_pass_stable hqy hgood hnl)

theorem normalize_idempotent_on_quote_free_witness :
    '"' ∉ " A  markdown\n\nbody ".toList ∧
      normalize_content_for_comparison
          (normalize_content_for_comparison " A  markdown\n\nbody ") =
        normalize_content_for_comparison " A  markdown\n\nbody " :=
  ⟨by decide,
    normalize_idempotent_on_quote_free.1 " A  markdown\n\nbody " (by decide)⟩

end ContentEngine
